import Mathlib

/-!
Verification of the chatsrv chat server (github.com/n0ot/chatsrv).

The development shallowly embeds the server actor (chatsrv.go, the command
handlers of client.go), the chat-loop client handler (client-handlers.go),
the client stop logic and the client writer loop (client.go) as executable
Lean definitions, and proves the stated properties about them.

Modelling conventions:
 * Go maps keyed by strings become functions `String → Option α`
   (`SMap α` below); session-context maps keyed by client identity become
   `Nat → Option α`.  Client sessions and response channels are identified
   by `Nat` ids; a nillable Go pointer or channel field is an `Option Nat`.
 * Go's `map[string]struct{}` member sets become `Finset String`.
 * `strings.ToLower` is modelled by `lowerStr`, which maps Go's Unicode
   case folding to the ASCII folding of Lean's `Char.toLower` (the two
   agree on ASCII, which covers every string a claim touches), and
   `unicode.IsLetter`/`unicode.IsDigit` by `Char.isAlpha`/`Char.isDigit`.
 * Sends on response channels do not mutate server state; the handlers
   therefore return, besides the new state, a list of `OutEvent`s
   recording what was sent or closed.  The member-by-member fan-out of
   `sayToRoom` is recorded as a single `broadcast` event (its order over
   a Go map is unspecified anyway); the purely informational listings of
   `users`/`rooms`/`whois` are recorded as `listing` events, since their
   text depends on unspecified map iteration order and wall-clock time.
 * Durations (`time.Duration`) are nanosecond counts modelled as `Nat`.
-/

/-! ## String-keyed and Nat-keyed maps -/

def SMap (α : Type) : Type := String → Option α

def SMap.empty {α : Type} : SMap α := fun _ => none

def SMap.insert {α : Type} (m : SMap α) (k : String) (v : α) : SMap α :=
  fun j => if j = k then some v else m j

def SMap.erase {α : Type} (m : SMap α) (k : String) : SMap α :=
  fun j => if j = k then none else m j

def NMap (α : Type) : Type := Nat → Option α

def NMap.empty {α : Type} : NMap α := fun _ => none

def NMap.insert {α : Type} (m : NMap α) (k : Nat) (v : α) : NMap α :=
  fun j => if j = k then some v else m j

/-! ## Case folding (strings.ToLower) and nick/room-name validity -/

/-- Model of Go's `strings.ToLower`, written with Lean's `Char.toLower`
(ASCII folding; agrees with Go on ASCII strings). -/
def lowerStr (s : String) : String := String.mk (s.data.map Char.toLower)

/-- Model of the per-rune check `unicode.IsLetter(r) || unicode.IsDigit(r)`
used to validate nicks and room names. -/
def isNickChar (c : Char) : Bool := c.isAlpha || c.isDigit

/-- A nick or room name is accepted iff every rune passes `isNickChar`
(the Go loop rejects on the first offending rune). -/
def validName (s : String) : Bool := s.data.all isNickChar

/-! ## Data model: rooms, server state, command envelopes -/

/-- client.go `room`: membership sets are `map[string]struct{}` in Go. -/
structure Room where
  creater : String
  mods : Finset String
  users : Finset String
  name : String
  topic : String
  modPass : String
  roomPass : String
  deriving DecidableEq

/-- chatsrv.go `server` (the actor-owned state; the command queue, the
config other than the MOTD, and the running flag are I/O concerns with no
bearing on the claims).  `rooms` and `clients` are keyed by lower-cased
name/nick; `userActiveRoom` and `userResponseChan` by exact-case nick.
`clients` values and `userResponseChan` values are the (nillable) session
pointer / response channel stored there. -/
structure ServerState where
  motd : String
  rooms : SMap Room
  clients : SMap (Option Nat)
  userActiveRoom : SMap String
  userResponseChan : SMap (Option Nat)

/-- The session-context variables touched by the actor:
`last_seen` (stamped by `handleCommand`) and `nick` (set by `cmdNick`),
keyed by session id. -/
structure World where
  srv : ServerState
  lastSeen : NMap Nat
  nickVar : NMap String

/-- client.go `serverCommand`.  `client` and `responseChan` are nillable. -/
structure ServerCommand where
  nick : String
  client : Option Nat
  responseChan : Option Nat
  command : String
  args : List String
  userInitiated : Bool
  deriving DecidableEq

/-- Observable channel activity of one handler run. -/
inductive OutEvent where
  | msg (chan : Option Nat) (text : String)
  | closeChan (chan : Option Nat)
  | broadcast (room : String) (text : String)
  | listing (tag : String)
  deriving DecidableEq

/-- Reply on the envelope's own response channel. -/
def msgE (cmd : ServerCommand) (text : String) : OutEvent :=
  OutEvent.msg cmd.responseChan text

def Handler : Type := World → ServerCommand → World × List OutEvent

/-! ## Helper functions (client.go) -/

/-- client.go `sayToRoom`: looks the room up under the lower-cased name;
error if absent, otherwise sends `message ++ "\n"` to the response channel
of every moderator and member (recorded as one `broadcast` event).
No server state changes. -/
def sayToRoom (s : ServerState) (roomName message : String) :
    Except String (List OutEvent) :=
  match s.rooms (lowerStr roomName) with
  | none => Except.error "Room doesn't exist"
  | some _ => Except.ok [OutEvent.broadcast roomName (message ++ "\n")]

/-- client.go `leaveRoom`: error if the room is unknown; otherwise removes
the nick from both membership sets (deleting from both is safe), clears the
active-room entry, announces the departure (at this point the updated room
is still in the map, so `sayToRoom` succeeds), and finally deletes the room
if its combined mod+member count reached zero. -/
def leaveRoom (s : ServerState) (nick roomName reason : String) :
    Except String (ServerState × List OutEvent) :=
  match s.rooms (lowerStr roomName) with
  | none => Except.error "Room doesn't exist"
  | some r =>
    let message :=
      (nick ++ " has left the room") ++ (if reason ≠ "" then ": " ++ reason else "")
    let r2 : Room := { r with mods := r.mods.erase nick, users := r.users.erase nick }
    let s1 : ServerState :=
      { s with rooms := s.rooms.insert (lowerStr roomName) r2,
               userActiveRoom := s.userActiveRoom.erase nick }
    let evs := [OutEvent.broadcast roomName (message ++ "\n")]
    if r2.mods.card + r2.users.card = 0 then
      Except.ok ({ s1 with rooms := s1.rooms.erase (lowerStr roomName) }, evs)
    else
      Except.ok (s1, evs)

/-! ## Internal commands (client.go) -/

/-- client.go `cmdAdduser`: case-insensitive collision check against
`clients`; on collision replies "nick taken" and closes the response
channel without registering; otherwise registers the session under the
lower-cased nick, the response channel under the exact-case nick, and
sends the MOTD + welcome. -/
def cmdAdduser : Handler := fun w cmd =>
  let s := w.srv
  if (s.clients (lowerStr cmd.nick)).isSome then
    (w, [msgE cmd "That nick is already taken.\n", OutEvent.closeChan cmd.responseChan])
  else
    ({ w with srv :=
        { s with clients := s.clients.insert (lowerStr cmd.nick) cmd.client,
                 userResponseChan := s.userResponseChan.insert cmd.nick cmd.responseChan } },
     [msgE cmd (s.motd ++ "\n\nWelcome " ++ cmd.nick ++ "\n")])

/-- client.go `cmdRmuser`: unknown nick is an error notice; otherwise the
user leaves their active room (if the recorded room name is non-empty;
`leaveRoom`'s error is discarded), is deleted from `clients` and
`userResponseChan`, and the response channel is closed (kick signal). -/
def cmdRmuser : Handler := fun w cmd =>
  let s := w.srv
  if (s.clients (lowerStr cmd.nick)).isNone then
    (w, [msgE cmd "That user doesn't exist\n"])
  else
    let reason0 := String.intercalate " " cmd.args
    let reason := if reason0 = "" then "User disconnected" else reason0
    let roomName := (s.userActiveRoom cmd.nick).getD ""
    let step1 : ServerState × List OutEvent :=
      if roomName ≠ "" then
        match leaveRoom s cmd.nick roomName reason with
        | Except.error _ => (s, [])
        | Except.ok p => p
      else (s, [])
    let s1 := step1.1
    ({ w with srv :=
        { s1 with clients := s1.clients.erase (lowerStr cmd.nick),
                  userResponseChan := s1.userResponseChan.erase cmd.nick } },
     step1.2 ++ [OutEvent.closeChan cmd.responseChan])

/-- client.go `cmdSay`: needs a room argument and at least one message
argument; broadcasts `nick ++ ": " ++ message` to the room, reporting
`sayToRoom`'s error back to the sender only. -/
def cmdSay : Handler := fun w cmd =>
  if cmd.args.length < 2 then
    (w, [msgE cmd "You must specify a room to say something to.\n"])
  else
    let roomName := cmd.args.getD 0 ""
    let message := String.intercalate " " (cmd.args.drop 1)
    match sayToRoom w.srv roomName (cmd.nick ++ ": " ++ message) with
    | Except.error e => (w, [msgE cmd (e ++ "\n")])
    | Except.ok evs => (w, evs)

/-! ## User commands (client.go) -/

/-- client.go `cmdUsers`: reads state only.  Its response text iterates
`clients` in unspecified Go map order and consults the wall clock, so it
is recorded as a `listing` event. -/
def cmdUsers : Handler := fun w _ => (w, [OutEvent.listing "users"])

/-- client.go `cmdRooms`: reads state only; response summarised as for
`cmdUsers`. -/
def cmdRooms : Handler := fun w _ => (w, [OutEvent.listing "rooms"])

/-- client.go `cmdCreate`: validates arity and the room name, rejects a
case-insensitive duplicate, leaves the caller's old room first (aborting
on a leave error), then installs the new room with the creator as sole
moderator and records it as the caller's active room. -/
def cmdCreate : Handler := fun w cmd =>
  let s := w.srv
  if cmd.args.length < 1 then
    (w, [msgE cmd "Use /create <name> [<topic> [<roompass>]]\nRoompass will only apply until the room is destroyed."])
  else
    let name := cmd.args.getD 0 ""
    let topic := cmd.args.getD 1 ""
    let roomPass := cmd.args.getD 2 ""
    if !validName name then
      (w, [msgE cmd "Room names can contain only letters and numbers\n"])
    else if (s.rooms (lowerStr name)).isSome then
      (w, [msgE cmd "That room already exists\n"])
    else
      let step1 : Except String (ServerState × List OutEvent) :=
        match s.userActiveRoom cmd.nick with
        | some oldRoomName => leaveRoom s cmd.nick oldRoomName ""
        | none => Except.ok (s, [])
      match step1 with
      | Except.error e => (w, [msgE cmd ("Error leaving old room: " ++ e ++ "\n")])
      | Except.ok (s1, evs1) =>
        let newRoom : Room :=
          { creater := cmd.nick, mods := {cmd.nick}, users := ∅,
            name := name, topic := topic, modPass := "", roomPass := roomPass }
        ({ w with srv :=
            { s1 with rooms := s1.rooms.insert (lowerStr name) newRoom,
                      userActiveRoom := s1.userActiveRoom.insert cmd.nick name } },
         evs1 ++ [msgE cmd ("Joined " ++ name ++ "; topic: " ++ topic ++ "\n")])

/-- client.go `cmdJoin`.  In Go the handler holds a pointer to the room
taken before `leaveRoom` runs; since `leaveRoom` only mutates the entry
for the old room's key, re-reading the target key after it either yields
the same (possibly updated, if the keys coincide) object or `none` when
`leaveRoom` deleted it.  In the latter case Go mutates the orphaned room
object (invisible to the map), the subsequent `sayToRoom` fails, and the
rollback deletes the membership and active-room entries again, so the net
effect is the post-`leaveRoom` state plus the error notice. -/
def cmdJoin : Handler := fun w cmd =>
  let s := w.srv
  if cmd.args.length < 1 then
    (w, [msgE cmd "Which room do you want to join?\n"])
  else
    let roomName := cmd.args.getD 0 ""
    let roomPass := cmd.args.getD 1 ""
    match s.rooms (lowerStr roomName) with
    | none => (w, [msgE cmd "That room doesn't exist\n"])
    | some r =>
      if cmd.nick ∈ r.mods then
        (w, [msgE cmd "You are already in that room as a moderator\n"])
      else if cmd.nick ∈ r.users then
        (w, [msgE cmd "You are already in that room\n"])
      else if r.roomPass ≠ "" ∧ roomPass = "" then
        (w, [msgE cmd ("That room is private.\nType /join " ++ r.name ++ " <roompass> to get in.\n")])
      else if r.roomPass ≠ "" ∧ r.roomPass ≠ roomPass then
        (w, [msgE cmd "Wrong password.\n"])
      else
        let step1 : Except String (ServerState × List OutEvent) :=
          match s.userActiveRoom cmd.nick with
          | some oldRoomName => leaveRoom s cmd.nick oldRoomName ""
          | none => Except.ok (s, [])
        match step1 with
        | Except.error e => (w, [msgE cmd ("Error leaving old room: " ++ e ++ "\n")])
        | Except.ok (s1, evs1) =>
          match s1.rooms (lowerStr roomName) with
          | some r1 =>
            let r2 : Room := { r1 with users := insert cmd.nick r1.users }
            let s2 : ServerState :=
              { s1 with rooms := s1.rooms.insert (lowerStr roomName) r2,
                        userActiveRoom := s1.userActiveRoom.insert cmd.nick r1.name }
            ({ w with srv := s2 },
             evs1 ++ [OutEvent.broadcast roomName (cmd.nick ++ " has joined the room\n"),
                      msgE cmd ("Joined " ++ r1.name ++ "; topic: " ++ r1.topic ++ "\n")])
          | none =>
            ({ w with srv := s1 },
             evs1 ++ [msgE cmd "Error while joining room: Room doesn't exist\n"])

/-- client.go `cmdLeave`: notice when not in a room, else leave it with the
joined args as reason and confirm. -/
def cmdLeave : Handler := fun w cmd =>
  let s := w.srv
  match s.userActiveRoom cmd.nick with
  | none => (w, [msgE cmd "You aren't in a room\n"])
  | some roomName =>
    match leaveRoom s cmd.nick roomName (String.intercalate " " cmd.args) with
    | Except.error e => (w, [msgE cmd ("Error leaving room: " ++ e ++ "\n")])
    | Except.ok (s1, evs) =>
      ({ w with srv := s1 }, evs ++ [msgE cmd ("Left " ++ roomName ++ "\n")])

/-- client.go `cmdQuit`: reframes itself as `rmuser` with reason
"User quit" (plus any trailing text). -/
def cmdQuit : Handler := fun w cmd =>
  let reason := if cmd.args.length = 0 then ["User quit"] else "User quit:" :: cmd.args
  cmdRmuser w { cmd with args := reason }

/-- client.go `cmdWhois`: target defaults to the caller; unknown nick is a
notice; the info text (remote address, last seen, ...) is summarised as a
`listing` event.  Reads state only. -/
def cmdWhois : Handler := fun w cmd =>
  let s := w.srv
  let nick := cmd.args.getD 0 cmd.nick
  if (s.clients (lowerStr nick)).isNone then
    (w, [msgE cmd "That user doesn't exist.\n"])
  else
    (w, [OutEvent.listing ("whois " ++ nick)])

/-- client.go `cmdNick`: validates the new nick, rejects a case-insensitive
collision against `clients`, then re-keys `clients` (lower-cased) and
`userResponseChan` (exact-case) to the new nick and updates the session's
context nick.  If the caller's recorded active room is non-empty it also
re-keys the membership sets and the creator reference of that room,
records the new nick's active room, and announces the rename; note that
the code never deletes the old nick's `userActiveRoom` entry.  A nil
session pointer would make Go's `SetVar` panic; it cannot reach this
handler through `handleCommand`, and is modelled as leaving the context
unchanged. -/
def cmdNick : Handler := fun w cmd =>
  let s := w.srv
  if cmd.args.length < 1 then
    (w, [msgE cmd "What do you want to change your nick to?\n"])
  else
    let nick := cmd.args.getD 0 ""
    if !validName nick then
      (w, [msgE cmd "Nicks can contain only letters and numbers\n"])
    else if (s.clients (lowerStr nick)).isSome then
      (w, [msgE cmd "That nick is already taken.\n"])
    else
      let clients1 := (s.clients.insert (lowerStr nick) cmd.client).erase (lowerStr cmd.nick)
      let urc1 := (s.userResponseChan.insert nick cmd.responseChan).erase cmd.nick
      let s1 : ServerState := { s with clients := clients1, userResponseChan := urc1 }
      let nickVar1 :=
        match cmd.client with
        | some c => w.nickVar.insert c nick
        | none => w.nickVar
      let roomName := (s1.userActiveRoom cmd.nick).getD ""
      if roomName ≠ "" then
        let s2 : ServerState :=
          { s1 with userActiveRoom := s1.userActiveRoom.insert nick roomName }
        let s3 : ServerState :=
          match s2.rooms (lowerStr roomName) with
          | some r =>
            let mods1 := if cmd.nick ∈ r.mods then insert nick (r.mods.erase cmd.nick) else r.mods
            let users1 := if cmd.nick ∈ r.users then insert nick (r.users.erase cmd.nick) else r.users
            let creater1 := if r.creater = cmd.nick then nick else r.creater
            let r2 : Room := { r with mods := mods1, users := users1, creater := creater1 }
            { s2 with rooms := s2.rooms.insert (lowerStr roomName) r2 }
          | none => s2
        let evs :=
          match sayToRoom s3 roomName (cmd.nick ++ " is now known as " ++ nick) with
          | Except.error _ => []
          | Except.ok evs => evs
        ({ srv := s3, lastSeen := w.lastSeen, nickVar := nickVar1 }, evs)
      else
        ({ srv := s1, lastSeen := w.lastSeen, nickVar := nickVar1 },
         [msgE cmd ("You are now known as " ++ nick ++ "\n")])

/-- client.go `cmdMe`: requires an action and an active room; broadcasts
`nick ++ " " ++ action` (discarding `sayToRoom`'s error, as the code does). -/
def cmdMe : Handler := fun w cmd =>
  if cmd.args.length < 1 then
    (w, [msgE cmd "Try something like \"/me sits down\" without the quotes.\n"])
  else
    let action := String.intercalate " " cmd.args
    match w.srv.userActiveRoom cmd.nick with
    | none => (w, [msgE cmd "You must be in a room to do that.\n"])
    | some roomName =>
      match sayToRoom w.srv roomName (cmd.nick ++ " " ++ action) with
      | Except.error _ => (w, [])
      | Except.ok evs => (w, evs)

/-! ## Command tables and dispatch (client.go init, chatsrv.go) -/

/-- client.go `init`: commands runnable by internal callers only. -/
def internalCommands : SMap Handler := fun name =>
  if name = "adduser" then some cmdAdduser
  else if name = "rmuser" then some cmdRmuser
  else if name = "say" then some cmdSay
  else none

/-- client.go `init`: user-accessible commands. -/
def commands : SMap Handler := fun name =>
  if name = "users" then some cmdUsers
  else if name = "rooms" then some cmdRooms
  else if name = "create" then some cmdCreate
  else if name = "join" then some cmdJoin
  else if name = "leave" then some cmdLeave
  else if name = "quit" then some cmdQuit
  else if name = "whois" then some cmdWhois
  else if name = "nick" then some cmdNick
  else if name = "me" then some cmdMe
  else none

/-- chatsrv.go `handleCommand` handler lookup: a non-user-initiated
envelope first consults the internal table, and only a `nil` result falls
through to the user table; a user-initiated envelope consults the user
table alone. -/
def lookupHandler (userInitiated : Bool) (name : String) : Option Handler :=
  match (if userInitiated then none else internalCommands name) with
  | some h => some h
  | none => commands name

/-- chatsrv.go `handleCommand`: validates nick/client/response channel
(returning the logged error and touching nothing on failure), stamps the
session's `last_seen` with the current time, answers an empty command name
with a dedicated notice, answers a failed lookup with the invalid-command
notice, and otherwise runs the handler synchronously.  The surrounding
`recover` only matters for panics, which the total model cannot raise. -/
def handleCommand (now : Nat) (w : World) (cmd : ServerCommand) :
    World × List OutEvent × Option String :=
  if cmd.nick = "" then (w, [], some "No nick supplied in command")
  else
    match cmd.client with
    | none => (w, [], some "No client supplied in command")
    | some c =>
      match cmd.responseChan with
      | none => (w, [], some "Received command, but no response channel")
      | some _ =>
        let w1 : World := { w with lastSeen := w.lastSeen.insert c now }
        if cmd.command = "" then
          (w1, [msgE cmd "No command specified\n"], none)
        else
          match lookupHandler cmd.userInitiated cmd.command with
          | none => (w1, [msgE cmd ("Invalid command: " ++ cmd.command ++ "\n")], none)
          | some h =>
            let r := h w1 cmd
            (r.1, r.2, none)

/-- chatsrv.go `NewServer` plus fresh session contexts. -/
def initialWorld (motd : String) : World :=
  { srv := { motd := motd, rooms := SMap.empty, clients := SMap.empty,
             userActiveRoom := SMap.empty, userResponseChan := SMap.empty },
    lastSeen := NMap.empty, nickVar := NMap.empty }

/-- One actor step as `acceptCommands` performs it (the logged error and
the channel activity are side effects); the timestamp is irrelevant to
every state invariant, so the fold stamps a constant clock. -/
def stepServer (w : World) (cmd : ServerCommand) : World :=
  (handleCommand 0 w cmd).1

/-- The actor state after draining a queue of commands, from a fresh
server. -/
def runServer (motd : String) (cmds : List ServerCommand) : World :=
  cmds.foldl stepServer (initialWorld motd)

/-! ## Client stop (client.go Client.Stop) -/

/-- The stop-relevant fields of client.go's `Client`: the `stopped` flag
and reason (guarded by `stoppedLock`), and whether the `done` and `Send`
channels have been closed.  The I/O handles (`rw`, `scanner`, the channel
contents, uuid, context) live outside this state. -/
structure Client where
  stopped : Bool
  stoppedReason : String
  doneClosed : Bool
  sendClosed : Bool
  deriving DecidableEq

/-- client.go `Client.Stop`: under the lock, a second call returns at once;
the first call records the reason, closes `done` and `Send`, and sets the
flag.  The returned list names the channels closed by this call (closing a
closed Go channel would panic, so an empty list on the second call is the
no-double-close property). -/
def Client.Stop (client : Client) (reason : String) : Client × List String :=
  if client.stopped then (client, [])
  else
    ({ stopped := true, stoppedReason := reason, doneClosed := true, sendClosed := true },
     ["done", "Send"])

/-! ## Client writer loop (client.go Client.send) -/

/-- Go's `data[n:]`: defined only when `n ≤ len(data)`; an over-large `n`
is an out-of-bounds slice (a runtime panic), modelled as `none`.  Bytes
are modelled as `Nat`s. -/
def sliceFrom (data : List Nat) (n : Nat) : Option (List Nat) :=
  if n ≤ data.length then some (data.drop n) else none

/-- client.go `Client.send` inner guard: a `Write` return value larger
than the buffer is clamped to the buffer length before re-slicing. -/
def clampWrite (data : List Nat) (n : Nat) : Nat :=
  if n > data.length then data.length else n

/-- The inner loop of client.go `Client.send` for a single buffer taken
from the `Send` queue.  `writes` is the oracle of `Write` results, one per
iteration: `none` is a write error (the loop stops the client and
returns), `some n` reports `n` bytes written.  The loop runs while the
buffer is non-empty; an exhausted oracle cuts the model off with the
remaining buffer.  A `none` result overall would be an out-of-bounds
slice, which the clamp is there to prevent. -/
def sendLoop : List (Option Nat) → List Nat → Option (List Nat)
  | _, [] => some []
  | [], data => some data
  | none :: _, data => some data
  | some n :: ws, data =>
    match sliceFrom data (clampWrite data n) with
    | none => none
    | some rest => sendLoop ws rest

/-! ## Chat-loop handler (client-handlers.go) -/

/-- client-handlers.go `sendMessage`: an empty buffer is a no-op; with no
active room for `nick` the flush is rejected locally (text written
directly to the client, second component); otherwise one `say` envelope is
posted to the actor (first component) whose body joins the buffered lines
with newlines and whose room argument is the active room. -/
def sendMessage (srv : ServerState) (nick : String) (client : Option Nat)
    (responseChan : Option Nat) (message : List String) :
    Option ServerCommand × List String :=
  if message.length = 0 then (none, [])
  else
    match srv.userActiveRoom nick with
    | none =>
      (none, ["You'll need to join a room before you can talk.\n/users lists all users, /rooms lists rooms, /join room joins a room,\n/leave leaves the room.\n"])
    | some roomName =>
      let fullMessage := String.intercalate "\n" message
      (some { nick := nick, client := client, responseChan := responseChan,
              command := "say", args := [roomName, fullMessage], userInitiated := false },
       [])

/-- The chat loop's per-session message state: the meaningful prefix
`message[:messageLineNumber]` of Go's fixed-size line buffer (the unread
suffix beyond the cursor is never observed), plus whether the paste timer
is currently running. -/
structure ChatState where
  buf : List String
  timerRunning : Bool
  deriving DecidableEq

/-- client-handlers.go `chatClientHandler.Handle`, the branch for an input
line that is non-empty and not `/`-prefixed: stop the paste timer and
reset it, then either append the line (cursor below the line limit) or
flush the buffered lines via `sendMessage` and start a new buffer holding
just this line.  With a zero line limit the restart writes `message[0]` on
a zero-length slice — an index-out-of-range panic, modelled as `none`.
Returns the new chat state, the envelope posted to the actor (if any) and
the text written directly to the client. -/
def messageLineStep (limit : Nat) (srv : ServerState) (nick : String)
    (client : Option Nat) (responseChan : Option Nat)
    (st : ChatState) (input : String) :
    Option (ChatState × Option ServerCommand × List String) :=
  if st.buf.length < limit then
    some ({ buf := st.buf ++ [input], timerRunning := true }, none, [])
  else
    let flushed := sendMessage srv nick client responseChan st.buf
    if 0 < limit then
      some ({ buf := [input], timerRunning := true }, flushed.1, flushed.2)
    else none

/-! ## Last-seen humanization (client.go getLastSeen) -/

def nsPerMinute : Nat := 60000000000

def nsPerHour : Nat := 3600000000000

def nsPerDay : Nat := 86400000000000

/-- client.go `getLastSeen`.  The input is `none` when the session has no
`last_seen` variable, else the elapsed `time.Since(lastSeenTime)` in
nanoseconds (the Go type-assertion-failure branch cannot arise in the
typed model).  The arithmetic mirrors the Go source: quotients by
`time.Minute`/`time.Hour`/24-hour durations with the lower units obtained
by subtraction. -/
def getLastSeen (sinceLastSeen : Option Nat) : String :=
  match sinceLastSeen with
  | none => "never"
  | some d =>
    if d / nsPerMinute < 1 then "Just now"
    else if d / nsPerHour < 1 then
      let numMinutes := d / nsPerMinute
      let minutes := if numMinutes = 1 then "minute" else "minutes"
      toString numMinutes ++ " " ++ minutes ++ " ago"
    else if d / nsPerHour < 24 then
      let numHours := d / nsPerHour
      let numMinutes := d / nsPerMinute - numHours * 60
      let hours := if numHours = 1 then "hour" else "hours"
      let minutes := if numMinutes = 1 then "minute" else "minutes"
      toString numHours ++ " " ++ hours ++ ", " ++ toString numMinutes ++ " " ++ minutes ++ " ago"
    else
      let numDays := d / nsPerDay
      let numHours := d / nsPerHour - numDays * 24
      let numMinutes := d / nsPerMinute - (numDays * 24 + numHours) * 60
      let days := if numDays = 1 then "day" else "days"
      let hours := if numHours = 1 then "hour" else "hours"
      let minutes := if numMinutes = 1 then "minute" else "minutes"
      toString numDays ++ " " ++ days ++ ", " ++ toString numHours ++ " " ++ hours ++ ", "
        ++ toString numMinutes ++ " " ++ minutes ++ " ago"

/-! ## Basic lemmas -/

theorem SMap.insert_apply {α : Type} (m : SMap α) (k : String) (v : α) (j : String) :
    (m.insert k v) j = if j = k then some v else m j := rfl

theorem SMap.erase_apply {α : Type} (m : SMap α) (k j : String) :
    (m.erase k) j = if j = k then none else m j := rfl

theorem charToLower_idem (c : Char) : c.toLower.toLower = c.toLower := by
  unfold Char.toLower
  by_cases h : c.toNat ≥ 65 ∧ c.toNat ≤ 90
  · rw [if_pos h]
    have hv : (c.toNat + 32).isValidChar := by left; omega
    rw [Char.ofNat, dif_pos hv]
    have ht : (Char.ofNatAux (c.toNat + 32) hv).toNat = c.toNat + 32 := rfl
    rw [ht]
    have hne : ¬(c.toNat + 32 ≥ 65 ∧ c.toNat + 32 ≤ 90) := by omega
    rw [if_neg hne]
  · rw [if_neg h, if_neg h]

theorem lowerStr_idem (s : String) : lowerStr (lowerStr s) = lowerStr s := by
  unfold lowerStr
  simp [List.map_map, Function.comp_def, charToLower_idem]

/-! ## Invariants of the actor state -/

/-- Every room in the room map has at least one occupant. -/
def roomsOccupied (s : ServerState) : Prop :=
  ∀ k r, s.rooms k = some r → (r.mods.Nonempty ∨ r.users.Nonempty)

/-- Every key of the `clients` map is its own lower-casing. -/
def clientsKeysFolded (s : ServerState) : Prop :=
  ∀ n, (s.clients n).isSome → lowerStr n = n

theorem leaveRoom_occupied {s : ServerState} {nick roomName reason : String}
    {p : ServerState × List OutEvent}
    (h : leaveRoom s nick roomName reason = Except.ok p)
    (hP : roomsOccupied s) : roomsOccupied p.1 := by
  unfold leaveRoom at h
  cases hrm : s.rooms (lowerStr roomName) with
  | none => rw [hrm] at h; exact absurd h (by simp)
  | some r =>
    rw [hrm] at h
    simp only at h
    split at h
    case isTrue hc =>
      cases h
      intro k r' hk
      simp only [SMap.erase_apply, SMap.insert_apply] at hk
      by_cases hkey : k = lowerStr roomName
      · rw [if_pos hkey] at hk; cases hk
      · rw [if_neg hkey, if_neg hkey] at hk
        exact hP k r' hk
    case isFalse hc =>
      cases h
      intro k r' hk
      simp only [SMap.insert_apply] at hk
      by_cases hkey : k = lowerStr roomName
      · rw [if_pos hkey] at hk
        cases hk
        have h1 : 0 < (r.mods.erase nick).card ∨ 0 < (r.users.erase nick).card := by omega
        rcases h1 with h1 | h1
        · exact Or.inl (Finset.card_pos.mp h1)
        · exact Or.inr (Finset.card_pos.mp h1)
      · rw [if_neg hkey] at hk
        exact hP k r' hk

theorem leaveRoom_clients {s : ServerState} {nick roomName reason : String}
    {p : ServerState × List OutEvent}
    (h : leaveRoom s nick roomName reason = Except.ok p) :
    p.1.clients = s.clients := by
  unfold leaveRoom at h
  cases hrm : s.rooms (lowerStr roomName) with
  | none => rw [hrm] at h; exact absurd h (by simp)
  | some r =>
    rw [hrm] at h
    simp only at h
    split at h <;> (cases h; rfl)

theorem cmdAdduser_occupied (w : World) (cmd : ServerCommand)
    (hP : roomsOccupied w.srv) : roomsOccupied (cmdAdduser w cmd).1.srv := by
  unfold cmdAdduser
  dsimp only
  split <;> exact hP

theorem cmdRmuser_occupied (w : World) (cmd : ServerCommand)
    (hP : roomsOccupied w.srv) : roomsOccupied (cmdRmuser w cmd).1.srv := by
  unfold cmdRmuser
  dsimp only
  split
  · exact hP
  · split
    · split
      case h_1 => exact hP
      case h_2 p heq =>
        intro k r hk
        exact leaveRoom_occupied heq hP k r hk
    · exact hP

theorem cmdSay_occupied (w : World) (cmd : ServerCommand)
    (hP : roomsOccupied w.srv) : roomsOccupied (cmdSay w cmd).1.srv := by
  unfold cmdSay
  dsimp only
  split
  · exact hP
  · split <;> exact hP

theorem cmdCreate_occupied (w : World) (cmd : ServerCommand)
    (hP : roomsOccupied w.srv) : roomsOccupied (cmdCreate w cmd).1.srv := by
  unfold cmdCreate
  dsimp only
  split
  · exact hP
  · split
    · exact hP
    · split
      · exact hP
      · split
        case h_1 => exact hP
        case h_2 s1 evs1 heq =>
          have hs1 : roomsOccupied s1 := by
            split at heq
            case h_1 old hact => exact leaveRoom_occupied heq hP
            case h_2 => cases heq; exact hP
          intro k r hk
          simp only [SMap.insert_apply] at hk
          by_cases hkey : k = lowerStr (cmd.args.getD 0 "")
          · rw [if_pos hkey] at hk
            cases hk
            exact Or.inl ⟨cmd.nick, Finset.mem_singleton_self cmd.nick⟩
          · rw [if_neg hkey] at hk
            exact hs1 k r hk

theorem cmdUsers_occupied (w : World) (cmd : ServerCommand)
    (hP : roomsOccupied w.srv) : roomsOccupied (cmdUsers w cmd).1.srv := hP

theorem cmdRooms_occupied (w : World) (cmd : ServerCommand)
    (hP : roomsOccupied w.srv) : roomsOccupied (cmdRooms w cmd).1.srv := hP

theorem cmdWhois_occupied (w : World) (cmd : ServerCommand)
    (hP : roomsOccupied w.srv) : roomsOccupied (cmdWhois w cmd).1.srv := by
  unfold cmdWhois
  dsimp only
  split <;> exact hP

theorem cmdMe_occupied (w : World) (cmd : ServerCommand)
    (hP : roomsOccupied w.srv) : roomsOccupied (cmdMe w cmd).1.srv := by
  unfold cmdMe
  dsimp only
  split
  · exact hP
  · split
    · exact hP
    · split <;> exact hP

theorem cmdJoin_occupied (w : World) (cmd : ServerCommand)
    (hP : roomsOccupied w.srv) : roomsOccupied (cmdJoin w cmd).1.srv := by
  unfold cmdJoin
  dsimp only
  split
  · exact hP
  · split
    case h_1 => exact hP
    case h_2 r hrm =>
      split
      · exact hP
      · split
        · exact hP
        · split
          · exact hP
          · split
            · exact hP
            · split
              case h_1 => exact hP
              case h_2 s1 evs1 heq =>
                have hs1 : roomsOccupied s1 := by
                  split at heq
                  case h_1 old hact => exact leaveRoom_occupied heq hP
                  case h_2 => cases heq; exact hP
                split
                case h_1 r1 hr1 =>
                  intro k r' hk
                  simp only [SMap.insert_apply] at hk
                  by_cases hkey : k = lowerStr (cmd.args.getD 0 "")
                  · rw [if_pos hkey] at hk
                    cases hk
                    exact Or.inr (Finset.insert_nonempty cmd.nick r1.users)
                  · rw [if_neg hkey] at hk
                    exact hs1 k r' hk
                case h_2 => exact hs1

theorem cmdLeave_occupied (w : World) (cmd : ServerCommand)
    (hP : roomsOccupied w.srv) : roomsOccupied (cmdLeave w cmd).1.srv := by
  unfold cmdLeave
  dsimp only
  split
  case h_1 => exact hP
  case h_2 roomName hact =>
    split
    case h_1 => exact hP
    case h_2 s1 evs heq => exact leaveRoom_occupied heq hP

theorem cmdQuit_occupied (w : World) (cmd : ServerCommand)
    (hP : roomsOccupied w.srv) : roomsOccupied (cmdQuit w cmd).1.srv := by
  unfold cmdQuit
  dsimp only
  exact cmdRmuser_occupied w _ hP

theorem cmdNick_occupied (w : World) (cmd : ServerCommand)
    (hP : roomsOccupied w.srv) : roomsOccupied (cmdNick w cmd).1.srv := by
  unfold cmdNick
  dsimp only
  split
  · exact hP
  · split
    · exact hP
    · split
      · exact hP
      · split
        · -- in-room branch
          split
          case h_1 r hrm =>
            intro k r' hk
            simp only [SMap.insert_apply] at hk
            by_cases hkey : k = lowerStr ((w.srv.userActiveRoom cmd.nick).getD "")
            · rw [if_pos hkey] at hk
              cases hk
              dsimp only
              split
              · exact Or.inl (Finset.insert_nonempty _ _)
              · split
                · exact Or.inr (Finset.insert_nonempty _ _)
                · exact hP k r (by rw [hkey]; exact hrm)
            · rw [if_neg hkey] at hk
              exact hP k r' hk
          case h_2 => exact hP
        · exact hP

theorem cmdAdduser_folded (w : World) (cmd : ServerCommand)
    (hQ : clientsKeysFolded w.srv) : clientsKeysFolded (cmdAdduser w cmd).1.srv := by
  unfold cmdAdduser
  dsimp only
  split
  · exact hQ
  · intro n h
    simp only [SMap.insert_apply] at h
    by_cases hkey : n = lowerStr cmd.nick
    · rw [hkey]; exact lowerStr_idem cmd.nick
    · rw [if_neg hkey] at h
      exact hQ n h

theorem cmdRmuser_folded (w : World) (cmd : ServerCommand)
    (hQ : clientsKeysFolded w.srv) : clientsKeysFolded (cmdRmuser w cmd).1.srv := by
  unfold cmdRmuser
  dsimp only
  split
  · exact hQ
  · intro n h
    simp only [SMap.erase_apply] at h
    split at h
    · simp at h
    · split at h
      · split at h
        case h_1 => exact hQ n h
        case h_2 p heq => rw [leaveRoom_clients heq] at h; exact hQ n h
      · exact hQ n h

theorem cmdSay_folded (w : World) (cmd : ServerCommand)
    (hQ : clientsKeysFolded w.srv) : clientsKeysFolded (cmdSay w cmd).1.srv := by
  unfold cmdSay
  dsimp only
  split
  · exact hQ
  · split <;> exact hQ

theorem cmdUsers_folded (w : World) (cmd : ServerCommand)
    (hQ : clientsKeysFolded w.srv) : clientsKeysFolded (cmdUsers w cmd).1.srv := hQ

theorem cmdRooms_folded (w : World) (cmd : ServerCommand)
    (hQ : clientsKeysFolded w.srv) : clientsKeysFolded (cmdRooms w cmd).1.srv := hQ

theorem cmdWhois_folded (w : World) (cmd : ServerCommand)
    (hQ : clientsKeysFolded w.srv) : clientsKeysFolded (cmdWhois w cmd).1.srv := by
  unfold cmdWhois
  dsimp only
  split <;> exact hQ

theorem cmdMe_folded (w : World) (cmd : ServerCommand)
    (hQ : clientsKeysFolded w.srv) : clientsKeysFolded (cmdMe w cmd).1.srv := by
  unfold cmdMe
  dsimp only
  split
  · exact hQ
  · split
    · exact hQ
    · split <;> exact hQ

theorem cmdCreate_folded (w : World) (cmd : ServerCommand)
    (hQ : clientsKeysFolded w.srv) : clientsKeysFolded (cmdCreate w cmd).1.srv := by
  unfold cmdCreate
  dsimp only
  split
  · exact hQ
  · split
    · exact hQ
    · split
      · exact hQ
      · split
        case h_1 => exact hQ
        case h_2 s1 evs1 heq =>
          have hc : s1.clients = w.srv.clients := by
            split at heq
            case h_1 old hact => exact leaveRoom_clients heq
            case h_2 => cases heq; rfl
          intro n h
          rw [hc] at h
          exact hQ n h

theorem cmdJoin_folded (w : World) (cmd : ServerCommand)
    (hQ : clientsKeysFolded w.srv) : clientsKeysFolded (cmdJoin w cmd).1.srv := by
  unfold cmdJoin
  dsimp only
  split
  · exact hQ
  · split
    case h_1 => exact hQ
    case h_2 r hrm =>
      split
      · exact hQ
      · split
        · exact hQ
        · split
          · exact hQ
          · split
            · exact hQ
            · split
              case h_1 => exact hQ
              case h_2 s1 evs1 heq =>
                have hc : s1.clients = w.srv.clients := by
                  split at heq
                  case h_1 old hact => exact leaveRoom_clients heq
                  case h_2 => cases heq; rfl
                split
                case h_1 r1 hr1 => intro n h; rw [hc] at h; exact hQ n h
                case h_2 => intro n h; rw [hc] at h; exact hQ n h

theorem cmdLeave_folded (w : World) (cmd : ServerCommand)
    (hQ : clientsKeysFolded w.srv) : clientsKeysFolded (cmdLeave w cmd).1.srv := by
  unfold cmdLeave
  dsimp only
  split
  case h_1 => exact hQ
  case h_2 roomName hact =>
    split
    case h_1 => exact hQ
    case h_2 s1 evs heq =>
      intro n h
      rw [leaveRoom_clients heq] at h
      exact hQ n h

theorem cmdQuit_folded (w : World) (cmd : ServerCommand)
    (hQ : clientsKeysFolded w.srv) : clientsKeysFolded (cmdQuit w cmd).1.srv := by
  unfold cmdQuit
  dsimp only
  exact cmdRmuser_folded w _ hQ

theorem cmdNick_folded (w : World) (cmd : ServerCommand)
    (hQ : clientsKeysFolded w.srv) : clientsKeysFolded (cmdNick w cmd).1.srv := by
  unfold cmdNick
  dsimp only
  split
  · exact hQ
  · split
    · exact hQ
    · split
      · exact hQ
      · have key : ∀ n,
            (((w.srv.clients.insert (lowerStr (cmd.args.getD 0 "")) cmd.client).erase
              (lowerStr cmd.nick)) n).isSome → lowerStr n = n := by
          intro n h
          simp only [SMap.erase_apply, SMap.insert_apply] at h
          split at h
          · simp at h
          · split at h
            case isTrue hkey => rw [hkey]; exact lowerStr_idem _
            case isFalse => exact hQ n h
        split
        · split
          case h_1 r hrm => exact key
          case h_2 => exact key
        · exact key

/-- Every handler reachable through `lookupHandler` is in one of the two
tables. -/
theorem lookupHandler_mem {ui : Bool} {name : String} {h : Handler}
    (hl : lookupHandler ui name = some h) :
    internalCommands name = some h ∨ commands name = some h := by
  unfold lookupHandler at hl
  split at hl
  case h_1 h2 hh =>
    cases hl
    cases ui with
    | false => exact Or.inl hh
    | true => exact absurd hh (by simp)
  case h_2 => exact Or.inr hl

theorem internal_occupied {name : String} {h : Handler}
    (hh : internalCommands name = some h) (w : World) (cmd : ServerCommand)
    (hP : roomsOccupied w.srv) : roomsOccupied (h w cmd).1.srv := by
  unfold internalCommands at hh
  split at hh
  · cases hh; exact cmdAdduser_occupied w cmd hP
  · split at hh
    · cases hh; exact cmdRmuser_occupied w cmd hP
    · split at hh
      · cases hh; exact cmdSay_occupied w cmd hP
      · exact absurd hh (by simp)

theorem user_occupied {name : String} {h : Handler}
    (hh : commands name = some h) (w : World) (cmd : ServerCommand)
    (hP : roomsOccupied w.srv) : roomsOccupied (h w cmd).1.srv := by
  unfold commands at hh
  split at hh
  · cases hh; exact cmdUsers_occupied w cmd hP
  · split at hh
    · cases hh; exact cmdRooms_occupied w cmd hP
    · split at hh
      · cases hh; exact cmdCreate_occupied w cmd hP
      · split at hh
        · cases hh; exact cmdJoin_occupied w cmd hP
        · split at hh
          · cases hh; exact cmdLeave_occupied w cmd hP
          · split at hh
            · cases hh; exact cmdQuit_occupied w cmd hP
            · split at hh
              · cases hh; exact cmdWhois_occupied w cmd hP
              · split at hh
                · cases hh; exact cmdNick_occupied w cmd hP
                · split at hh
                  · cases hh; exact cmdMe_occupied w cmd hP
                  · exact absurd hh (by simp)

theorem internal_folded {name : String} {h : Handler}
    (hh : internalCommands name = some h) (w : World) (cmd : ServerCommand)
    (hQ : clientsKeysFolded w.srv) : clientsKeysFolded (h w cmd).1.srv := by
  unfold internalCommands at hh
  split at hh
  · cases hh; exact cmdAdduser_folded w cmd hQ
  · split at hh
    · cases hh; exact cmdRmuser_folded w cmd hQ
    · split at hh
      · cases hh; exact cmdSay_folded w cmd hQ
      · exact absurd hh (by simp)

theorem user_folded {name : String} {h : Handler}
    (hh : commands name = some h) (w : World) (cmd : ServerCommand)
    (hQ : clientsKeysFolded w.srv) : clientsKeysFolded (h w cmd).1.srv := by
  unfold commands at hh
  split at hh
  · cases hh; exact cmdUsers_folded w cmd hQ
  · split at hh
    · cases hh; exact cmdRooms_folded w cmd hQ
    · split at hh
      · cases hh; exact cmdCreate_folded w cmd hQ
      · split at hh
        · cases hh; exact cmdJoin_folded w cmd hQ
        · split at hh
          · cases hh; exact cmdLeave_folded w cmd hQ
          · split at hh
            · cases hh; exact cmdQuit_folded w cmd hQ
            · split at hh
              · cases hh; exact cmdWhois_folded w cmd hQ
              · split at hh
                · cases hh; exact cmdNick_folded w cmd hQ
                · split at hh
                  · cases hh; exact cmdMe_folded w cmd hQ
                  · exact absurd hh (by simp)

theorem stepServer_occupied (w : World) (cmd : ServerCommand)
    (hP : roomsOccupied w.srv) : roomsOccupied (stepServer w cmd).srv := by
  unfold stepServer handleCommand
  dsimp only
  split
  · exact hP
  · split
    · exact hP
    · split
      · exact hP
      · split
        · exact hP
        · split
          case h_1 => exact hP
          case h_2 h hl =>
            rcases lookupHandler_mem hl with hh | hh
            · exact internal_occupied hh _ cmd hP
            · exact user_occupied hh _ cmd hP

theorem stepServer_folded (w : World) (cmd : ServerCommand)
    (hQ : clientsKeysFolded w.srv) : clientsKeysFolded (stepServer w cmd).srv := by
  unfold stepServer handleCommand
  dsimp only
  split
  · exact hQ
  · split
    · exact hQ
    · split
      · exact hQ
      · split
        · exact hQ
        · split
          case h_1 => exact hQ
          case h_2 h hl =>
            rcases lookupHandler_mem hl with hh | hh
            · exact internal_folded hh _ cmd hQ
            · exact user_folded hh _ cmd hQ

theorem foldl_occupied (cmds : List ServerCommand) :
    ∀ w : World, roomsOccupied w.srv → roomsOccupied (cmds.foldl stepServer w).srv := by
  induction cmds with
  | nil => intro w hP; exact hP
  | cons c cs ih => intro w hP; exact ih _ (stepServer_occupied w c hP)

theorem foldl_folded (cmds : List ServerCommand) :
    ∀ w : World, clientsKeysFolded w.srv → clientsKeysFolded (cmds.foldl stepServer w).srv := by
  induction cmds with
  | nil => intro w hQ; exact hQ
  | cons c cs ih => intro w hQ; exact ih _ (stepServer_folded w c hQ)

theorem initial_occupied (motd : String) : roomsOccupied (initialWorld motd).srv := by
  intro k r hk
  simp [initialWorld, SMap.empty] at hk

theorem initial_folded (motd : String) : clientsKeysFolded (initialWorld motd).srv := by
  intro n h
  simp [initialWorld, SMap.empty] at h

theorem runServer_occupied (motd : String) (cmds : List ServerCommand) :
    roomsOccupied (runServer motd cmds).srv :=
  foldl_occupied cmds (initialWorld motd) (initial_occupied motd)

theorem runServer_folded (motd : String) (cmds : List ServerCommand) :
    clientsKeysFolded (runServer motd cmds).srv :=
  foldl_folded cmds (initialWorld motd) (initial_folded motd)

/-! ## Claim C8: idempotent stop -/

/-- C8: calling a session's `Stop` a second time, with any reason, is a
no-op: the resulting client record (stop flag, reason, closed `done`,
closed `Send`) equals the state after the first call and the second call
closes no channel, so no double close occurs. -/
theorem Stop_idempotent (s : Client) (r1 r2 : String) :
    Client.Stop (Client.Stop s r1).1 r2 = ((Client.Stop s r1).1, []) := by
  unfold Client.Stop
  by_cases h : s.stopped <;> simp [h]

/-! ## Claim C10: writer-loop slice safety -/

theorem sendLoop_isSome (writes : List (Option Nat)) :
    ∀ data : List Nat, (sendLoop writes data).isSome = true := by
  induction writes with
  | nil => intro data; cases data <;> rfl
  | cons wr ws ih =>
    intro data
    cases data with
    | nil => cases wr <;> rfl
    | cons b bs =>
      cases wr with
      | none => rfl
      | some n =>
        unfold sendLoop
        have hcl : clampWrite (b :: bs) n ≤ (b :: bs).length := by
          unfold clampWrite; split <;> omega
        rw [show sliceFrom (b :: bs) (clampWrite (b :: bs) n)
              = some ((b :: bs).drop (clampWrite (b :: bs) n)) from by
            unfold sliceFrom; rw [if_pos hcl]]
        exact ih _

/-- C10: in the writer loop, the write count `n` is clamped to the buffer
length before re-slicing, so the slice `data[n:]` is always in bounds (the
loop never hits the `none`/panic case for any oracle of `Write` results),
and a positive write strictly shrinks a non-empty buffer. -/
theorem send_clamped_slices (writes : List (Option Nat)) (data : List Nat) (n : Nat) :
    (sendLoop writes data).isSome = true ∧
    clampWrite data n ≤ data.length ∧
    sliceFrom data (clampWrite data n) = some (data.drop (clampWrite data n)) ∧
    (data ≠ [] → 0 < n → (data.drop (clampWrite data n)).length < data.length) := by
  have hcl : clampWrite data n ≤ data.length := by
    unfold clampWrite; split <;> omega
  refine ⟨sendLoop_isSome writes data, hcl, ?_, ?_⟩
  · unfold sliceFrom; rw [if_pos hcl]
  · intro hne hn
    have hlen : 0 < data.length := List.length_pos.mpr hne
    have hclpos : 0 < clampWrite data n := by
      unfold clampWrite; split <;> omega
    rw [List.length_drop]
    omega

/-- Witness for C10 at a concrete buffer and write result. -/
theorem send_clamped_slices_witness :
    ([(1 : Nat), 2, 3] ≠ [] ∧ 0 < 5) ∧
    (List.drop (clampWrite [(1 : Nat), 2, 3] 5) [(1 : Nat), 2, 3]).length < [(1 : Nat), 2, 3].length ∧
    (sendLoop [some 2, some 9] [(1 : Nat), 2, 3]).isSome = true := by
  refine ⟨⟨by simp, by omega⟩, ?_, ?_⟩
  · exact (send_clamped_slices [some 2, some 9] [1, 2, 3] 5).2.2.2 (by simp) (by omega)
  · exact (send_clamped_slices [some 2, some 9] [1, 2, 3] 5).1

/-- An empty server state used by several concrete scenarios. -/
def srvEmpty : ServerState :=
  { motd := "", rooms := SMap.empty, clients := SMap.empty,
    userActiveRoom := SMap.empty, userResponseChan := SMap.empty }

/-- A server state whose only fact is that alice's active room is lobby. -/
def srvLobby : ServerState :=
  { srvEmpty with userActiveRoom := SMap.empty.insert "alice" "lobby" }

/-! ## Claim C5: chat-loop flush behaviour -/

/-- C5: flushing an empty line buffer posts nothing and writes nothing;
flushing a non-empty buffer while the nick has an active room posts
exactly one `say` envelope whose body joins the buffered lines with
newlines and whose room argument is the active room (and writes nothing
locally); flushing with no active room posts nothing and writes the local
guidance message instead. -/
theorem flush_behaviour (srv : ServerState) (nick : String)
    (client responseChan : Option Nat) (message : List String) :
    (message = [] → sendMessage srv nick client responseChan message = (none, [])) ∧
    (message ≠ [] → ∀ roomName, srv.userActiveRoom nick = some roomName →
      sendMessage srv nick client responseChan message =
        (some { nick := nick, client := client, responseChan := responseChan,
                command := "say", args := [roomName, String.intercalate "\n" message],
                userInitiated := false }, [])) ∧
    (message ≠ [] → srv.userActiveRoom nick = none →
      sendMessage srv nick client responseChan message =
        (none, ["You'll need to join a room before you can talk.\n/users lists all users, /rooms lists rooms, /join room joins a room,\n/leave leaves the room.\n"])) := by
  refine ⟨?_, ?_, ?_⟩
  · intro h
    subst h
    rfl
  · intro hne roomName hact
    unfold sendMessage
    rw [if_neg (by simpa using hne), hact]
  · intro hne hact
    unfold sendMessage
    rw [if_neg (by simpa using hne), hact]

/-- Witness for C5: concrete flushes in and out of a room. -/
theorem flush_behaviour_witness :
    sendMessage srvLobby "alice" (some 1) (some 1) ["a", "b"] =
      (some { nick := "alice", client := some 1, responseChan := some 1,
              command := "say", args := ["lobby", "a\nb"], userInitiated := false }, []) := by
  have h := (flush_behaviour srvLobby "alice" (some 1) (some 1) ["a", "b"]).2.1
    (by simp) "lobby" (by rfl)
  simpa using h

/-! ## Claim C6: message-line handling (corrected: needs a positive limit) -/

/-- C6 counterexample: with a configured message-line limit of zero the
cursor (0) equals the limit, but the step does not leave a buffer holding
the new line — Go indexes `message[0]` on a zero-length slice and panics
(`none` in the model), rather than producing the claimed state. -/
theorem message_line_zero_limit_panics :
    messageLineStep 0 srvEmpty
      "alice" (some 1) (some 1) { buf := [], timerRunning := false } "hi" = none ∧
    messageLineStep 0 srvEmpty
      "alice" (some 1) (some 1) { buf := [], timerRunning := false } "hi" ≠
      some ({ buf := ["hi"], timerRunning := true }, none, []) := by
  exact ⟨rfl, by decide⟩

/-- Model of `strings.HasPrefix(input, "/")`: the line is a command iff
its first character is the slash. -/
def slashPrefixed (input : String) : Bool :=
  match input.data with
  | [] => false
  | c :: _ => c = '/'

/-- C6 (amended with a positive line limit): for a non-empty,
non-command input line the paste timer is left restarted, and either the
line is appended when the cursor is below the limit, or — when the cursor
equals the (positive) limit — the buffered lines are flushed via
`sendMessage` and the new buffer holds exactly the new line. -/
theorem message_line_behaviour (limit : Nat) (srv : ServerState) (nick : String)
    (client responseChan : Option Nat) (st : ChatState) (input : String)
    (hpos : 0 < limit) (_hne : input ≠ "") (_hcmd : slashPrefixed input = false) :
    (st.buf.length < limit →
      messageLineStep limit srv nick client responseChan st input =
        some ({ buf := st.buf ++ [input], timerRunning := true }, none, [])) ∧
    (st.buf.length = limit →
      messageLineStep limit srv nick client responseChan st input =
        some ({ buf := [input], timerRunning := true },
          (sendMessage srv nick client responseChan st.buf).1,
          (sendMessage srv nick client responseChan st.buf).2)) := by
  constructor
  · intro hlt
    unfold messageLineStep
    rw [if_pos hlt]
  · intro heq
    unfold messageLineStep
    rw [if_neg (by omega), if_pos hpos]

/-- Witness for C6 at a full two-line buffer inside a room. -/
theorem message_line_behaviour_witness :
    messageLineStep 2 srvLobby
      "alice" (some 1) (some 1) { buf := ["a", "b"], timerRunning := false } "c" =
      some ({ buf := ["c"], timerRunning := true },
        some { nick := "alice", client := some 1, responseChan := some 1,
               command := "say", args := ["lobby", "a\nb"], userInitiated := false }, []) := by
  have h := (message_line_behaviour 2 srvLobby
      "alice" (some 1) (some 1) { buf := ["a", "b"], timerRunning := false } "c"
      (by omega) (by decide) (by decide)).2 (by decide)
  rw [h]
  rfl

/-! ## Claim C7: last-seen humanization -/

/-- C7: the humanization buckets elapsed time exactly as specified, with
the counts given by quotients and remainders in the respective units and
each unit word singular precisely when its count is 1. -/
theorem last_seen_buckets (e : Option Nat) :
    (e = none → getLastSeen e = "never") ∧
    (∀ d, e = some d →
      (d < nsPerMinute → getLastSeen e = "Just now") ∧
      (nsPerMinute ≤ d → d < nsPerHour →
        getLastSeen e = toString (d / nsPerMinute) ++ " " ++
          (if d / nsPerMinute = 1 then "minute" else "minutes") ++ " ago") ∧
      (nsPerHour ≤ d → d < nsPerDay →
        getLastSeen e = toString (d / nsPerHour) ++ " " ++
          (if d / nsPerHour = 1 then "hour" else "hours") ++ ", " ++
          toString (d % nsPerHour / nsPerMinute) ++ " " ++
          (if d % nsPerHour / nsPerMinute = 1 then "minute" else "minutes") ++ " ago") ∧
      (nsPerDay ≤ d →
        getLastSeen e = toString (d / nsPerDay) ++ " " ++
          (if d / nsPerDay = 1 then "day" else "days") ++ ", " ++
          toString (d % nsPerDay / nsPerHour) ++ " " ++
          (if d % nsPerDay / nsPerHour = 1 then "hour" else "hours") ++ ", " ++
          toString (d % nsPerHour / nsPerMinute) ++ " " ++
          (if d % nsPerHour / nsPerMinute = 1 then "minute" else "minutes") ++ " ago")) := by
  constructor
  · intro h; subst h; rfl
  · intro d he
    subst he
    unfold nsPerMinute nsPerHour nsPerDay
    refine ⟨?_, ?_, ?_, ?_⟩
    · intro h1
      have c1 : d / 60000000000 < 1 := by omega
      simp only [getLastSeen, nsPerMinute, nsPerHour, nsPerDay, if_pos c1]
    · intro h1 h2
      have c1 : ¬ d / 60000000000 < 1 := by omega
      have c2 : d / 3600000000000 < 1 := by omega
      simp only [getLastSeen, nsPerMinute, nsPerHour, nsPerDay, if_neg c1, if_pos c2]
    · intro h1 h2
      have c1 : ¬ d / 60000000000 < 1 := by omega
      have c2 : ¬ d / 3600000000000 < 1 := by omega
      have c3 : d / 3600000000000 < 24 := by omega
      simp only [getLastSeen, nsPerMinute, nsPerHour, nsPerDay, if_neg c1, if_neg c2, if_pos c3]
      have hm : d / 60000000000 - d / 3600000000000 * 60
          = d % 3600000000000 / 60000000000 := by omega
      simp only [hm]
    · intro h1
      have c1 : ¬ d / 60000000000 < 1 := by omega
      have c2 : ¬ d / 3600000000000 < 1 := by omega
      have c3 : ¬ d / 3600000000000 < 24 := by omega
      simp only [getLastSeen, nsPerMinute, nsPerHour, nsPerDay, if_neg c1, if_neg c2, if_neg c3]
      have hh : d / 3600000000000 - d / 86400000000000 * 24
          = d % 86400000000000 / 3600000000000 := by omega
      have hm : d / 60000000000 -
            (d / 86400000000000 * 24 + d % 86400000000000 / 3600000000000) * 60
          = d % 3600000000000 / 60000000000 := by omega
      simp only [hh, hm]

/-- Witness for C7 in the day bucket: 1 day, 3 hours, 7 minutes in
nanoseconds. -/
theorem last_seen_buckets_witness :
    getLastSeen (some 97620000000000) = "1 day, 3 hours, 7 minutes ago" := by
  have h := ((last_seen_buckets (some 97620000000000)).2 97620000000000 rfl).2.2.2
    (by unfold nsPerDay; omega)
  rw [h]
  rfl

/-! ## Claim C3: room occupancy invariant -/

/-- C3: from the empty server, after any sequence of create, join, leave,
rmuser, quit and nick commands, every room in the room map has at least
one occupant: its moderator and member sets are not both empty. -/
theorem room_occupancy_invariant (motd : String) (cmds : List ServerCommand)
    (_hnames : ∀ c ∈ cmds, c.command = "create" ∨ c.command = "join" ∨ c.command = "leave" ∨
      c.command = "rmuser" ∨ c.command = "quit" ∨ c.command = "nick") :
    ∀ k r, (runServer motd cmds).srv.rooms k = some r →
      r.mods.Nonempty ∨ r.users.Nonempty :=
  fun k r hk => runServer_occupied motd cmds k r hk

/-- The envelope that creates the room lobby on behalf of alice. -/
def createLobbyCmd : ServerCommand :=
  { nick := "alice", client := some 1, responseChan := some 1,
    command := "create", args := ["lobby"], userInitiated := true }

/-- The room lobby as just created by alice. -/
def lobbyRoomW : Room :=
  { creater := "alice", mods := {"alice"}, users := ∅,
    name := "lobby", topic := "", modPass := "", roomPass := "" }

/-- Witness for C3: after a concrete create, the lobby exists and is
occupied. -/
theorem room_occupancy_invariant_witness :
    (runServer "" [createLobbyCmd]).srv.rooms "lobby" = some lobbyRoomW ∧
    (lobbyRoomW.mods.Nonempty ∨ lobbyRoomW.users.Nonempty) :=
  ⟨by decide,
   room_occupancy_invariant "" [createLobbyCmd] (by decide) "lobby" lobbyRoomW (by decide)⟩

/-! ## Claim C1: the clients/userActiveRoom/rooms relation (violated) -/

/-- The C1 invariant as the spec states it: a nick present in `clients`
has at most one active-room entry (immediate, since `userActiveRoom` is a
map), and that entry, if present, names a room in `rooms` whose moderator
set or member set — never both — contains the nick. -/
def activeRoomConsistent (s : ServerState) : Prop :=
  ∀ n, (s.clients n).isSome → ∀ rm, s.userActiveRoom n = some rm →
    ∃ r, s.rooms (lowerStr rm) = some r ∧
      ((n ∈ r.mods ∧ n ∉ r.users) ∨ (n ∈ r.users ∧ n ∉ r.mods))

/-- alice registers (session 1). -/
def adduserAliceCmd : ServerCommand :=
  { nick := "alice", client := some 1, responseChan := some 1,
    command := "adduser", args := [], userInitiated := false }

/-- alice renames herself to alicia. -/
def nickAliciaCmd : ServerCommand :=
  { nick := "alice", client := some 1, responseChan := some 1,
    command := "nick", args := ["alicia"], userInitiated := true }

/-- A second user takes the now-free nick alice (session 2). -/
def adduserAlice2Cmd : ServerCommand :=
  { nick := "alice", client := some 2, responseChan := some 2,
    command := "adduser", args := [], userInitiated := false }

/-- The command sequence that exposes the stale active-room entry. -/
def nickStaleSeq : List ServerCommand :=
  [adduserAliceCmd, createLobbyCmd, nickAliciaCmd, adduserAlice2Cmd]

/-- The room lobby after the rename: re-keyed to alicia. -/
def staleLobbyRoom : Room :=
  { creater := "alicia", mods := {"alicia"}, users := ∅,
    name := "lobby", topic := "", modPass := "", roomPass := "" }

/-- C1 fails on the code: `cmdNick` re-keys `clients`, `userResponseChan`
and the room's membership, but never deletes the old nick's
`userActiveRoom` entry.  After alice (in lobby) renames to alicia the
entry `userActiveRoom "alice" = "lobby"` survives, and once a second user
registers as alice, that nick is in `clients` with an active-room entry
naming a room whose membership does not contain it. -/
theorem nick_leaves_stale_active_room :
    (runServer "" [adduserAliceCmd, createLobbyCmd, nickAliciaCmd]).srv.userActiveRoom "alice"
      = some "lobby" ∧
    ¬ activeRoomConsistent (runServer "" nickStaleSeq).srv := by
  constructor
  · decide
  · intro h
    have h2 := h "alice" (by decide) "lobby" (by decide)
    obtain ⟨r, hr, hmem⟩ := h2
    have hrooms : (runServer "" nickStaleSeq).srv.rooms (lowerStr "lobby")
        = some staleLobbyRoom := by decide
    rw [hrooms] at hr
    cases hr
    rcases hmem with ⟨hm, _⟩ | ⟨hu, _⟩
    · exact absurd hm (by decide)
    · exact absurd hu (by decide)

/-! ## Claim C2: case-insensitive nick uniqueness -/

/-- C2: over any sequence of adduser/nick commands from the empty server,
no two distinct registered nicks agree after case folding (registration
keys are already folded, so case-equal keys coincide); moreover adduser
answers a case-insensitive collision with the nick-taken message and a
close of the response channel, registering nothing, and nick answers a
collision with the nick-taken message re-keying nothing. -/
theorem nick_uniqueness (motd : String) (cmds : List ServerCommand)
    (_hnames : ∀ c ∈ cmds, c.command = "adduser" ∨ c.command = "nick") :
    (∀ n1 n2, ((runServer motd cmds).srv.clients n1).isSome →
        ((runServer motd cmds).srv.clients n2).isSome →
        lowerStr n1 = lowerStr n2 → n1 = n2) ∧
    (∀ (w : World) (cmd : ServerCommand), (w.srv.clients (lowerStr cmd.nick)).isSome →
        cmdAdduser w cmd =
          (w, [msgE cmd "That nick is already taken.\n", OutEvent.closeChan cmd.responseChan])) ∧
    (∀ (w : World) (cmd : ServerCommand) (n2 : String), cmd.args = [n2] →
        validName n2 = true → (w.srv.clients (lowerStr n2)).isSome →
        cmdNick w cmd = (w, [msgE cmd "That nick is already taken.\n"])) := by
  refine ⟨?_, ?_, ?_⟩
  · intro n1 n2 h1 h2 he
    have q := runServer_folded motd cmds
    calc n1 = lowerStr n1 := (q n1 h1).symm
      _ = lowerStr n2 := he
      _ = n2 := q n2 h2
  · intro w cmd h
    unfold cmdAdduser
    dsimp only
    rw [if_pos h]
  · intro w cmd n2 hargs hvalid hsome
    unfold cmdNick
    dsimp only
    simp only [hargs, List.getD_cons_zero, List.length_cons, List.length_nil]
    rw [if_neg (by omega), hvalid]
    simp only [Bool.not_true, Bool.false_eq_true, if_false]
    rw [if_pos hsome]

/-- The world with exactly alice registered, as built by the actor. -/
def wAlice : World := runServer "" [adduserAliceCmd]

/-- A second session trying to register the same nick in different case. -/
def adduserALICECmd : ServerCommand :=
  { nick := "ALICE", client := some 2, responseChan := some 2,
    command := "adduser", args := [], userInitiated := false }

/-- Witness for C2: the case-folded collision is refused and the response
channel closed. -/
theorem nick_uniqueness_witness :
    cmdAdduser wAlice adduserALICECmd =
      (wAlice, [msgE adduserALICECmd "That nick is already taken.\n",
                OutEvent.closeChan (some 2)]) := by
  have h := (nick_uniqueness "" [adduserAliceCmd] (by decide)).2.1 wAlice adduserALICECmd
    (by decide)
  rw [h]
  rfl

/-! ## Claim C4: envelope validation and dispatch (corrected: empty names
get their own notice) -/

/-- An envelope with an empty command name from a registered-looking
session. -/
def emptyNameCmd : ServerCommand :=
  { nick := "alice", client := some 1, responseChan := some 1,
    command := "", args := [], userInitiated := true }

/-- C4 counterexample: the empty command name matches no handler in either
table, yet the reply is the dedicated "No command specified" notice, not
the invalid-command notice the claim promises for every envelope without
an applicable handler. -/
theorem dispatch_empty_name_counterexample :
    (internalCommands "").isNone = true ∧ (commands "").isNone = true ∧
    (handleCommand 0 (initialWorld "") emptyNameCmd).2.1 =
      [OutEvent.msg (some 1) "No command specified\n"] ∧
    (handleCommand 0 (initialWorld "") emptyNameCmd).2.1 ≠
      [OutEvent.msg (some 1) ("Invalid command: " ++ "" ++ "\n")] :=
  ⟨rfl, rfl, by decide, by decide⟩

/-- C4 (amended for the empty name): a malformed envelope (empty nick,
nil session or nil response channel) is dropped with a logged error and
nothing else happens; otherwise the session's last_seen is stamped and
the stamped world is what every later branch sees: an empty command name
is answered with the no-command-specified notice, a nonempty name with no
applicable handler is answered with the invalid-command notice (neither
touches the server state), and otherwise the unique applicable handler
runs on the stamped world.  Lookup prefers the internal table exactly
when the envelope is not user-initiated, falling back to the user table;
a user-initiated envelope naming adduser, rmuser or say finds no handler. -/
theorem command_dispatch (now : Nat) (w : World) (cmd : ServerCommand) :
    ((cmd.nick = "" ∨ cmd.client = none ∨ cmd.responseChan = none) →
      (handleCommand now w cmd).1 = w ∧ (handleCommand now w cmd).2.1 = [] ∧
      ((handleCommand now w cmd).2.2).isSome = true) ∧
    (cmd.nick ≠ "" → ∀ c, cmd.client = some c → cmd.responseChan ≠ none →
      ((cmd.command = "" →
         handleCommand now w cmd =
           ({ w with lastSeen := w.lastSeen.insert c now },
            [msgE cmd "No command specified\n"], none)) ∧
       (cmd.command ≠ "" → (lookupHandler cmd.userInitiated cmd.command).isNone = true →
         handleCommand now w cmd =
           ({ w with lastSeen := w.lastSeen.insert c now },
            [msgE cmd ("Invalid command: " ++ cmd.command ++ "\n")], none)) ∧
       (cmd.command ≠ "" → ∀ h, lookupHandler cmd.userInitiated cmd.command = some h →
         handleCommand now w cmd =
           ((h { w with lastSeen := w.lastSeen.insert c now } cmd).1,
            (h { w with lastSeen := w.lastSeen.insert c now } cmd).2, none)))) ∧
    (∀ name, lookupHandler true name = commands name ∧
      (∀ h, internalCommands name = some h → lookupHandler false name = some h) ∧
      (internalCommands name = none → lookupHandler false name = commands name)) ∧
    ((commands "adduser").isNone = true ∧ (commands "rmuser").isNone = true ∧
     (commands "say").isNone = true) := by
  refine ⟨?_, ?_, ?_, ⟨rfl, rfl, rfl⟩⟩
  · intro hbad
    unfold handleCommand
    by_cases hn : cmd.nick = ""
    · simp [hn]
    · rcases hbad with h | h | h
      · exact absurd h hn
      · simp [if_neg hn, h]
      · cases hc : cmd.client with
        | none => simp [if_neg hn, hc]
        | some c => simp [if_neg hn, hc, h]
  · intro hn c hc hch
    cases hch2 : cmd.responseChan with
    | none => exact absurd hch2 hch
    | some ch =>
      refine ⟨?_, ?_, ?_⟩
      · intro hcmd
        unfold handleCommand
        rw [if_neg hn]
        simp only [hc, hch2]
        rw [if_pos hcmd]
      · intro hcmd hnone
        unfold handleCommand
        rw [if_neg hn]
        simp only [hc, hch2]
        rw [if_neg hcmd, Option.isNone_iff_eq_none.mp hnone]
      · intro hcmd h hh
        unfold handleCommand
        rw [if_neg hn]
        simp only [hc, hch2]
        rw [if_neg hcmd, hh]
  · intro name
    refine ⟨rfl, ?_, ?_⟩
    · intro h hh
      unfold lookupHandler
      simp only [if_neg Bool.false_ne_true, hh]
    · intro hh
      unfold lookupHandler
      simp only [if_neg Bool.false_ne_true, hh]

/-- A user-initiated envelope naming the internal-only adduser command. -/
def uiAdduserCmd : ServerCommand :=
  { nick := "bob", client := some 3, responseChan := some 3,
    command := "adduser", args := [], userInitiated := true }

/-- Witness for C4: the user-initiated adduser envelope is answered with
the invalid-command notice and only the last_seen stamp changes. -/
theorem command_dispatch_witness :
    handleCommand 7 (initialWorld "") uiAdduserCmd =
      ({ initialWorld "" with lastSeen := (initialWorld "").lastSeen.insert 3 7 },
       [msgE uiAdduserCmd ("Invalid command: " ++ "adduser" ++ "\n")], none) := by
  have h := ((command_dispatch 7 (initialWorld "") uiAdduserCmd).2.1 (by decide) 3 rfl
    (by decide)).2.1 (by decide) rfl
  exact h

/-! ## Claim C9: a case-only rename collides with the caller's own entry -/

/-- Running `cmdNick` with a valid new nick whose lower-casing is already
a key of `clients` replies nick-taken and changes nothing. -/
theorem cmdNick_collision (w : World) (cmd : ServerCommand) (n2 : String)
    (hargs : cmd.args = [n2]) (hvalid : validName n2 = true)
    (hsome : (w.srv.clients (lowerStr n2)).isSome = true) :
    cmdNick w cmd = (w, [msgE cmd "That nick is already taken.\n"]) := by
  unfold cmdNick
  dsimp only
  simp only [hargs, List.getD_cons_zero, List.length_cons, List.length_nil]
  rw [if_neg (by omega), hvalid]
  simp only [Bool.not_true, Bool.false_eq_true, if_false]
  rw [if_pos hsome]

/-- C9: for a registered caller, a user-initiated nick command whose
argument differs from the caller's nick only in letter case (same
lower-casing, letters and digits only) is dispatched to `cmdNick`, which
finds the caller's own lower-cased entry in `clients`, replies that the
nick is taken, and leaves all server state — and the session context —
unchanged apart from the last_seen stamp. -/
theorem nick_case_only_rename_rejected (now : Nat) (w : World) (cmd : ServerCommand)
    (n2 : String)
    (hcmd : cmd.command = "nick") (hui : cmd.userInitiated = true)
    (hnick : cmd.nick ≠ "") (hc : cmd.client.isSome = true)
    (hch : cmd.responseChan.isSome = true)
    (hargs : cmd.args = [n2]) (hvalid : validName n2 = true)
    (hreg : (w.srv.clients (lowerStr cmd.nick)).isSome = true)
    (hcase : lowerStr n2 = lowerStr cmd.nick) :
    (handleCommand now w cmd).1.srv = w.srv ∧
    (handleCommand now w cmd).1.nickVar = w.nickVar ∧
    (handleCommand now w cmd).2.1 = [msgE cmd "That nick is already taken.\n"] := by
  cases hcc : cmd.client with
  | none => rw [hcc] at hc; exact absurd hc (by simp)
  | some c =>
    cases hchc : cmd.responseChan with
    | none => rw [hchc] at hch; exact absurd hch (by simp)
    | some ch =>
      have hlook : lookupHandler cmd.userInitiated cmd.command = some cmdNick := by
        rw [hui, hcmd]; rfl
      have hcol := cmdNick_collision
        { srv := w.srv, lastSeen := w.lastSeen.insert c now, nickVar := w.nickVar }
        cmd n2 hargs hvalid (by rw [hcase]; exact hreg)
      unfold handleCommand
      rw [if_neg hnick]
      simp only [hcc, hchc]
      rw [if_neg (by rw [hcmd]; decide), hlook]
      dsimp only
      rw [hcol]
      exact ⟨rfl, rfl, rfl⟩

/-- alice (registered with session 1) tries to rename to ALICE. -/
def nickALICECmd : ServerCommand :=
  { nick := "alice", client := some 1, responseChan := some 1,
    command := "nick", args := ["ALICE"], userInitiated := true }

/-- Witness for C9: the concrete case-only rename is refused with the
nick-taken message and changes no server state. -/
theorem nick_case_only_rename_rejected_witness :
    (handleCommand 0 wAlice nickALICECmd).1.srv = wAlice.srv ∧
    (handleCommand 0 wAlice nickALICECmd).1.nickVar = wAlice.nickVar ∧
    (handleCommand 0 wAlice nickALICECmd).2.1 =
      [msgE nickALICECmd "That nick is already taken.\n"] :=
  nick_case_only_rename_rejected 0 wAlice nickALICECmd "ALICE"
    rfl rfl (by decide) rfl rfl rfl (by decide) (by decide) (by decide)
